import Mathlib

/-!
Shallow embedding of `src/remote_data_cmds.go` from gbbr/srclib-go: the
`pull` and `push` commands that synchronize build-data files between a
local commit-addressed store (`.srclib-cache`) and a remote catalog.

External collaborators (`buildstore.RepositoryStore`, the sourcegraph API
client, `code.google.com/p/rog-go/parallel`) are not part of the source
fragment; where a claim depends on them they are modelled from the spec and
marked as such.  Effects (directory creation, local writes, uploads, and
stream open/close events) are tracked explicitly so that frame and
resource-release properties are statable.
-/

namespace SrclibGo

/-- Byte sequences are modelled as lists of naturals. -/
abbrev Bytes := List Nat

/-- Errors are opaque strings (Go `error` values). -/
abbrev Err := String

/-- Go struct `buildstore.BuildDataFileInfo`: one record of a listing, carrying
the relative path, the owning commit identifier, size and modification time. -/
structure BuildDataFileInfo where
  CommitID : String
  Path : String
  Size : Nat
  ModTime : Nat
deriving DecidableEq, Repr

/-- Go struct `sourcegraph.RepoRevSpec`: repository URI, revision, commit id. -/
structure RepoRevSpec where
  URI : String
  Rev : String
  CommitID : String
deriving DecidableEq, Repr

/-- Go struct `sourcegraph.BuildDataFileSpec`: addresses one remote file. -/
structure BuildDataFileSpec where
  RepoRev : RepoRevSpec
  Path : String
deriving DecidableEq, Repr

/-- The fields of `repo` (from `OpenRepo(".")`) that `remote_data_cmds.go` reads. -/
structure Repo where
  URI : String
  CommitID : String
  RootDir : String
deriving DecidableEq, Repr

/-- Modelled from the spec: `buildstore.RepositoryStore.FilePath` is not in the
source fragment.  The spec says local files are stored at a path derived
deterministically from (content identifier, relative path) under a fixed cache
root, so the model joins the two components with a path separator. -/
def FilePath (commitID path : String) : String :=
  commitID ++ "/" ++ path

/-- Modelled from the spec: Go's `filepath.Dir`, the ancestor-directory part of
a path (everything before the final separator). -/
def dirOf (p : String) : String :=
  String.intercalate "/" ((p.splitOn "/").dropLast)

/-- Result of `repoStore.Stat`: either a Go error (nonexistent file, permission
failure, ...) or a `FileInfo` whose mode may or may not be a regular file. -/
inductive StatResult where
  | err (e : Err)
  | ok (isRegular : Bool) (size : Nat)
deriving DecidableEq, Repr

/-- Result of `apiclient.BuildData.List`: a file set, or a Go error together
with the shape of the accompanying response.  `httpErr` is the case where the
response is a non-nil `*sourcegraph.HTTPResponse` carrying a status code;
`otherErr` covers every other failing response. -/
inductive ListResp where
  | ok (files : List BuildDataFileInfo)
  | httpErr (e : Err) (status : Nat)
  | otherErr (e : Err)
deriving DecidableEq, Repr

/-- Stream open/close events, recorded in order, used to state the
resource-release claims.  `remoteOpen/remoteClose` is the stream returned by
`BuildData.Get`; `localCreate/localCloseW` the file made by `repoStore.Create`;
`localOpen/localCloseR` the file opened by `repoStore.Open` for upload. -/
inductive Ev where
  | remoteOpen (spec : BuildDataFileSpec)
  | remoteClose (spec : BuildDataFileSpec)
  | localCreate (path : String)
  | localCloseW (path : String)
  | localOpen (path : String)
  | localCloseR (path : String)
deriving DecidableEq, Repr

/-- Observable side effects of a run: directories created (`rwvfs.MkdirAll`
attempts), completed local file writes, attempted uploads, and the stream
open/close trace. -/
structure Effects where
  mkdirs : List String
  writes : List (String × Bytes)
  uploads : List (BuildDataFileSpec × Bytes)
  trace : List Ev
deriving DecidableEq, Repr

/-- No side effects. -/
def emptyEff : Effects := ⟨[], [], [], []⟩

/-- Sequential composition of effects. -/
def Effects.append (a b : Effects) : Effects :=
  ⟨a.mkdirs ++ b.mkdirs, a.writes ++ b.writes, a.uploads ++ b.uploads, a.trace ++ b.trace⟩

/-- Effects of a list of tasks, in submission order. -/
def concatEff (l : List Effects) : Effects :=
  l.foldr Effects.append emptyEff

/-- The environment a run executes against: the outcome of each collaborator
call.  `openRepo` is `OpenRepo(".")`; `list` is `apiclient.BuildData.List`;
`newRepoStore` is `buildstore.NewRepositoryStore`; `get` is the uncached
`BuildData.Get`; `mkdirAll`, `create`, `copy` are the local-store operations in
`fetchFile` (an `Option Err` result of `none` means success); `allDataFiles` is
`repoStore.AllDataFiles`; `stat`, `openF` are `repoStore.Stat` / `Open`;
`upload` is `apiclient.BuildData.Upload`. -/
structure Env where
  openRepo : Except Err Repo
  list : RepoRevSpec → ListResp
  newRepoStore : String → Except Err Unit
  get : BuildDataFileSpec → Except Err Bytes
  mkdirAll : String → Option Err
  create : String → Option Err
  copy : String → Bytes → Option Err
  allDataFiles : Except Err (List BuildDataFileInfo)
  stat : String → StatResult
  openF : String → Except Err Bytes
  upload : BuildDataFileSpec → Bytes → Option Err

/-- Embedding of `fetchFile` (remote_data_cmds.go lines 99-150).  The concrete
path and the remote file spec are derived from the record's own `CommitID` and
`Path`; the remote stream is closed by a `defer` on every path after a
successful `Get`, and the created local file by a `defer` on every path after a
successful `Create` (defers run last-registered-first). -/
def fetchFile (env : Env) (repoURI : String) (fi : BuildDataFileInfo) :
    Option Err × Effects :=
  let path := FilePath fi.CommitID fi.Path
  let fileSpec : BuildDataFileSpec :=
    { RepoRev := { URI := repoURI, Rev := fi.CommitID, CommitID := fi.CommitID },
      Path := fi.Path }
  match env.get fileSpec with
  | .error e => (some e, emptyEff)
  | .ok remoteBytes =>
    match env.mkdirAll (dirOf path) with
    | some e =>
      (some e, { mkdirs := [dirOf path], writes := [], uploads := [],
                 trace := [.remoteOpen fileSpec, .remoteClose fileSpec] })
    | none =>
      match env.create path with
      | some e =>
        (some e, { mkdirs := [dirOf path], writes := [], uploads := [],
                   trace := [.remoteOpen fileSpec, .remoteClose fileSpec] })
      | none =>
        match env.copy path remoteBytes with
        | some e =>
          (some e, { mkdirs := [dirOf path], writes := [], uploads := [],
                     trace := [.remoteOpen fileSpec, .localCreate path,
                               .localCloseW path, .remoteClose fileSpec] })
        | none =>
          (none, { mkdirs := [dirOf path], writes := [(path, remoteBytes)], uploads := [],
                   trace := [.remoteOpen fileSpec, .localCreate path,
                             .localCloseW path, .remoteClose fileSpec] })

/-- Embedding of `uploadFile` (remote_data_cmds.go lines 196-236).  A `Stat`
error, or a mode that is not a regular file, makes the task return `nil`
without touching the remote.  Note that the file handle from `repoStore.Open`
is never closed in the source: there is no `defer f.Close()`, so the trace has
a `localOpen` with no matching `localCloseR`. -/
def uploadFile (env : Env) (file : BuildDataFileInfo) (repoURI : String) :
    Option Err × Effects :=
  let path := FilePath file.CommitID file.Path
  let fileSpec : BuildDataFileSpec :=
    { RepoRev := { URI := repoURI, Rev := file.CommitID, CommitID := file.CommitID },
      Path := file.Path }
  match env.stat path with
  | .err _ => (none, emptyEff)
  | .ok isRegular _ =>
    if !isRegular then (none, emptyEff)
    else
      match env.openF path with
      | .error e => (some e, emptyEff)
      | .ok localBytes =>
        match env.upload fileSpec localBytes with
        | some e =>
          (some e, { mkdirs := [], writes := [], uploads := [(fileSpec, localBytes)],
                     trace := [.localOpen path] })
        | none =>
          (none, { mkdirs := [], writes := [], uploads := [(fileSpec, localBytes)],
                   trace := [.localOpen path] })

/-- First error of a list of task results, in submission order. -/
def firstErr : List (Option Err) → Option Err
  | [] => none
  | none :: rest => firstErr rest
  | some e :: _ => some e

/-- The concurrency bound both commands pass to `parallel.NewRun` (the literal
`8` at remote_data_cmds.go lines 89 and 186). -/
def parBound : Nat := 8

/-- Modelled from the spec: `parallel.Run` (from `code.google.com/p/rog-go`) is
not in the source fragment.  Per the spec, `Wait` blocks until every submitted
task has completed — siblings run to completion, so every task's effects occur
— and returns the first error encountered, or nil if all succeeded.  The bound
`k` limits how many tasks are simultaneously active (see `SchedStep`); the
aggregate result and effects are independent of `k`. -/
def parRun (_k : Nat) (results : List (Option Err × Effects)) : Option Err × Effects :=
  (firstErr (results.map Prod.fst), concatEff (results.map Prod.snd))

/-- Outcome of a command's `Execute`: a returned `nil`, a returned error, or a
process-terminating `log.Fatal`. -/
inductive ExecResult where
  | ok
  | err (e : Err)
  | fatal (e : Err)
deriving DecidableEq, Repr

/-- Convert a batch result (`par.Wait()`) into the value `Execute` returns. -/
def execOfErr : Option Err → ExecResult
  | some e => .err e
  | none => .ok

/-- Flags of the `pull` command. -/
structure PullOpts where
  List : Bool
  URLs : Bool
deriving DecidableEq, Repr

/-- Flags of the `push` command. -/
structure PushOpts where
  List : Bool
deriving DecidableEq, Repr

/-- Embedding of `(*PullCmd).Execute` (remote_data_cmds.go lines 44-97).
`OpenRepo` failure returns the error; a `List` failure whose response is a
non-nil HTTP response with status 404 logs and returns `nil`; any other `List`
failure is `log.Fatal`; list-only mode prints and returns `nil`;
`NewRepositoryStore` failure returns the error; otherwise one `fetchFile` task
per remote file runs under `parallel.NewRun(8)` and `Wait`'s result is
returned. -/
def PullCmdExecute (c : PullOpts) (env : Env) : ExecResult × Effects :=
  match env.openRepo with
  | .error e => (.err e, emptyEff)
  | .ok repo =>
    let rr : RepoRevSpec :=
      { URI := repo.URI, Rev := repo.CommitID, CommitID := repo.CommitID }
    match env.list rr with
    | .httpErr e status =>
      if status == 404 then (.ok, emptyEff) else (.fatal e, emptyEff)
    | .otherErr e => (.fatal e, emptyEff)
    | .ok remoteFiles =>
      if c.List then (.ok, emptyEff)
      else
        match env.newRepoStore repo.RootDir with
        | .error e => (.err e, emptyEff)
        | .ok _ =>
          let res := parRun parBound (remoteFiles.map (fun file => fetchFile env repo.URI file))
          (execOfErr res.1, res.2)

/-- Embedding of `(*PushCmd).Execute` (remote_data_cmds.go lines 158-194).
`OpenRepo` failure returns the error; `NewRepositoryStore` and `AllDataFiles`
failures are `log.Fatal`; list-only mode prints and returns `nil`; otherwise
one `uploadFile` task per local file runs under `parallel.NewRun(8)` and
`Wait`'s result is returned. -/
def PushCmdExecute (c : PushOpts) (env : Env) : ExecResult × Effects :=
  match env.openRepo with
  | .error e => (.err e, emptyEff)
  | .ok repo =>
    match env.newRepoStore repo.RootDir with
    | .error e => (.fatal e, emptyEff)
    | .ok _ =>
      match env.allDataFiles with
      | .error e => (.fatal e, emptyEff)
      | .ok localFiles =>
        if c.List then (.ok, emptyEff)
        else
          let res := parRun parBound (localFiles.map (fun file => uploadFile env file repo.URI))
          (execOfErr res.1, res.2)

/-- The remote file spec both `fetchFile` and `uploadFile` build for a record:
URI from the repo, `Rev` and `CommitID` both from the record's own `CommitID`,
path from the record's `Path`. -/
def specOf (uri : String) (r : BuildDataFileInfo) : BuildDataFileSpec :=
  { RepoRev := { URI := uri, Rev := r.CommitID, CommitID := r.CommitID }, Path := r.Path }

/-- An inert environment where every collaborator call is benign; concrete runs
override the fields they exercise. -/
def baseEnv : Env where
  openRepo := .error "unused"
  list := fun _ => .otherErr "unused"
  newRepoStore := fun _ => .ok ()
  get := fun _ => .error "unused"
  mkdirAll := fun _ => none
  create := fun _ => none
  copy := fun _ _ => none
  allDataFiles := .ok []
  stat := fun _ => .err "unused"
  openF := fun _ => .error "unused"
  upload := fun _ _ => none

lemma uploadFile_stat_err (env : Env) (file : BuildDataFileInfo) (uri : String) (e : Err)
    (h : env.stat (FilePath file.CommitID file.Path) = .err e) :
    uploadFile env file uri = (none, emptyEff) := by
  simp [uploadFile, h]

lemma uploadFile_not_regular (env : Env) (file : BuildDataFileInfo) (uri : String) (sz : Nat)
    (h : env.stat (FilePath file.CommitID file.Path) = .ok false sz) :
    uploadFile env file uri = (none, emptyEff) := by
  simp [uploadFile, h]

lemma firstErr_eq_none_iff (l : List (Option Err)) :
    firstErr l = none ↔ ∀ x ∈ l, x = none := by
  induction l with
  | nil => simp [firstErr]
  | cons x rest ih =>
    cases x with
    | none => simpa [firstErr] using ih
    | some e => simp [firstErr]

/-- Claim C2: if the remote `List` call fails with a non-nil HTTP response whose
status is 404, Pull logs "No remote build files found", returns `nil`, and
performs no transfer at all. -/
theorem pull_notfound_ok (c : PullOpts) (env : Env) (repo : Repo) (e : Err)
    (h1 : env.openRepo = .ok repo)
    (h2 : env.list { URI := repo.URI, Rev := repo.CommitID, CommitID := repo.CommitID }
            = .httpErr e 404) :
    PullCmdExecute c env = (.ok, emptyEff) := by
  simp [PullCmdExecute, h1, h2]

/-- Witness for C2 at a concrete environment. -/
theorem pull_notfound_ok_witness :
    PullCmdExecute { List := false, URLs := false }
      { baseEnv with openRepo := .ok { URI := "r", CommitID := "c", RootDir := "/d" },
                     list := fun _ => .httpErr "404 not found" 404 }
      = (.ok, emptyEff) :=
  pull_notfound_ok _ _ { URI := "r", CommitID := "c", RootDir := "/d" } "404 not found" rfl rfl

/-- Claim C9: the upload task returns `nil` (and issues no upload) whenever
`Stat` on the concrete path returns any error at all, or succeeds with a mode
that is not a regular file; in either case nothing contributes to the batch
error. -/
theorem upload_skips_on_stat_failure (env : Env) (file : BuildDataFileInfo) (uri : String)
    (h : (∃ e, env.stat (FilePath file.CommitID file.Path) = .err e) ∨
         (∃ sz, env.stat (FilePath file.CommitID file.Path) = .ok false sz)) :
    uploadFile env file uri = (none, emptyEff) := by
  rcases h with ⟨e, he⟩ | ⟨sz, hs⟩
  · exact uploadFile_stat_err env file uri e he
  · exact uploadFile_not_regular env file uri sz hs

/-- Witness for C9: a permission-style stat error and a directory both skip. -/
theorem upload_skips_on_stat_failure_witness :
    uploadFile { baseEnv with stat := fun _ => .err "permission denied" }
        { CommitID := "c", Path := "a.json", Size := 1, ModTime := 0 } "r" = (none, emptyEff)
    ∧ uploadFile { baseEnv with stat := fun _ => .ok false 0 }
        { CommitID := "c", Path := "adir", Size := 0, ModTime := 0 } "r" = (none, emptyEff) :=
  ⟨upload_skips_on_stat_failure _ _ _ (Or.inl ⟨"permission denied", rfl⟩),
   upload_skips_on_stat_failure _ _ _ (Or.inr ⟨0, rfl⟩)⟩

/-- Claim C1: in transfer mode, a record whose local file no longer exists at
transfer time (its `Stat` errors) yields an upload task returning `nil`, and
the whole Push succeeds when every other file's upload task succeeds. -/
theorem push_skips_vanished_file (c : PushOpts) (env : Env) (repo : Repo)
    (files : List BuildDataFileInfo) (f0 : BuildDataFileInfo) (e : Err)
    (h1 : env.openRepo = .ok repo)
    (h2 : env.newRepoStore repo.RootDir = .ok ())
    (h3 : env.allDataFiles = .ok files)
    (h4 : c.List = false)
    (h5 : env.stat (FilePath f0.CommitID f0.Path) = .err e)
    (h6 : ∀ f ∈ files, f ≠ f0 → (uploadFile env f repo.URI).1 = none) :
    (uploadFile env f0 repo.URI).1 = none ∧ (PushCmdExecute c env).1 = .ok := by
  have hskip : uploadFile env f0 repo.URI = (none, emptyEff) :=
    uploadFile_stat_err env f0 repo.URI e h5
  refine ⟨by rw [hskip], ?_⟩
  have hall : ∀ x ∈ (files.map (fun file => uploadFile env file repo.URI)).map Prod.fst,
      x = none := by
    intro x hx
    rcases List.mem_map.1 hx with ⟨pr, hpr, rfl⟩
    rcases List.mem_map.1 hpr with ⟨f, hf, rfl⟩
    by_cases hf0 : f = f0
    · subst hf0; rw [hskip]
    · exact h6 f hf hf0
  have hall2 : firstErr ((files.map (fun file => uploadFile env file repo.URI)).map Prod.fst)
      = none := (firstErr_eq_none_iff _).2 hall
  rw [List.map_map] at hall2
  simp [PushCmdExecute, h1, h2, h3, h4, parRun, hall2, execOfErr]

/-- Witness for C1: one vanished file plus one present file still pushes
cleanly. -/
theorem push_skips_vanished_file_witness :
    (uploadFile
        { baseEnv with
            openRepo := .ok { URI := "r", CommitID := "c", RootDir := "/d" },
            allDataFiles := .ok
              [{ CommitID := "c", Path := "gone.json", Size := 1, ModTime := 0 },
               { CommitID := "c", Path := "here.json", Size := 1, ModTime := 0 }],
            stat := fun p => if p = "c/here.json" then .ok true 1 else .err "no such file",
            openF := fun p => if p = "c/here.json" then .ok [7] else .error "no such file" }
        { CommitID := "c", Path := "gone.json", Size := 1, ModTime := 0 } "r").1 = none
    ∧ (PushCmdExecute { List := false }
        { baseEnv with
            openRepo := .ok { URI := "r", CommitID := "c", RootDir := "/d" },
            allDataFiles := .ok
              [{ CommitID := "c", Path := "gone.json", Size := 1, ModTime := 0 },
               { CommitID := "c", Path := "here.json", Size := 1, ModTime := 0 }],
            stat := fun p => if p = "c/here.json" then .ok true 1 else .err "no such file",
            openF := fun p => if p = "c/here.json" then .ok [7] else .error "no such file" }).1
      = .ok :=
  push_skips_vanished_file { List := false } _ { URI := "r", CommitID := "c", RootDir := "/d" }
    _ { CommitID := "c", Path := "gone.json", Size := 1, ModTime := 0 } "no such file"
    rfl rfl rfl rfl (by simp [FilePath])
    (by
      intro f hf hne
      simp only [List.mem_cons, List.not_mem_nil, or_false] at hf
      rcases hf with rfl | rfl
      · exact absurd rfl hne
      · simp [uploadFile, FilePath, baseEnv])

/-- Claim C5: with the list-only flag set, Pull and Push print the listing and
return `nil` with no effects at all: no directory made, no local file written,
no upload issued, no stream opened. -/
theorem list_only_no_writes (cp : PullOpts) (cq : PushOpts) (envP envQ : Env)
    (repoP repoQ : Repo) (filesP filesQ : List BuildDataFileInfo)
    (hP1 : envP.openRepo = .ok repoP)
    (hP2 : envP.list { URI := repoP.URI, Rev := repoP.CommitID, CommitID := repoP.CommitID }
             = .ok filesP)
    (hPl : cp.List = true)
    (hQ1 : envQ.openRepo = .ok repoQ)
    (hQ2 : envQ.newRepoStore repoQ.RootDir = .ok ())
    (hQ3 : envQ.allDataFiles = .ok filesQ)
    (hQl : cq.List = true) :
    PullCmdExecute cp envP = (.ok, emptyEff) ∧ PushCmdExecute cq envQ = (.ok, emptyEff) := by
  constructor
  · simp [PullCmdExecute, hP1, hP2, hPl]
  · simp [PushCmdExecute, hQ1, hQ2, hQ3, hQl]

/-- Witness for C5 with nonempty listings on both sides. -/
theorem list_only_no_writes_witness :
    PullCmdExecute { List := true, URLs := true }
      { baseEnv with openRepo := .ok { URI := "r", CommitID := "c", RootDir := "/d" },
                     list := fun _ =>
                       .ok [{ CommitID := "c", Path := "a.json", Size := 3, ModTime := 1 }] }
      = (.ok, emptyEff)
    ∧ PushCmdExecute { List := true }
      { baseEnv with openRepo := .ok { URI := "r", CommitID := "c", RootDir := "/d" },
                     allDataFiles :=
                       .ok [{ CommitID := "c", Path := "a.json", Size := 3, ModTime := 1 }] }
      = (.ok, emptyEff) :=
  list_only_no_writes _ _ _ _ { URI := "r", CommitID := "c", RootDir := "/d" }
    { URI := "r", CommitID := "c", RootDir := "/d" } _ _ rfl rfl rfl rfl rfl rfl rfl

/-- Claim C4: in transfer mode each command's result is exactly `Wait`'s
aggregation over the per-file task results: every task's effects occur
(siblings run to completion), the returned error is the first task error in
submission order, and the result is `nil` exactly when every task succeeded. -/
theorem batch_first_error (cp : PullOpts) (cq : PushOpts) (envP envQ : Env)
    (repoP repoQ : Repo) (filesP filesQ : List BuildDataFileInfo)
    (hP1 : envP.openRepo = .ok repoP)
    (hP2 : envP.list { URI := repoP.URI, Rev := repoP.CommitID, CommitID := repoP.CommitID }
             = .ok filesP)
    (hPl : cp.List = false)
    (hP3 : envP.newRepoStore repoP.RootDir = .ok ())
    (hQ1 : envQ.openRepo = .ok repoQ)
    (hQ2 : envQ.newRepoStore repoQ.RootDir = .ok ())
    (hQ3 : envQ.allDataFiles = .ok filesQ)
    (hQl : cq.List = false) :
    PullCmdExecute cp envP =
      (execOfErr (firstErr ((filesP.map (fun f => fetchFile envP repoP.URI f)).map Prod.fst)),
       concatEff ((filesP.map (fun f => fetchFile envP repoP.URI f)).map Prod.snd))
    ∧ PushCmdExecute cq envQ =
      (execOfErr (firstErr ((filesQ.map (fun f => uploadFile envQ f repoQ.URI)).map Prod.fst)),
       concatEff ((filesQ.map (fun f => uploadFile envQ f repoQ.URI)).map Prod.snd))
    ∧ (∀ l : List (Option Err), execOfErr (firstErr l) = .ok ↔ ∀ x ∈ l, x = none) := by
  refine ⟨?_, ?_, ?_⟩
  · simp [PullCmdExecute, hP1, hP2, hPl, hP3, parRun]
  · simp [PushCmdExecute, hQ1, hQ2, hQ3, hQl, parRun]
  · intro l
    cases hfe : firstErr l with
    | none => simpa [execOfErr] using (firstErr_eq_none_iff l).1 hfe
    | some e =>
      simp only [execOfErr]
      constructor
      · intro h; exact ExecResult.noConfusion h
      · intro h
        have hn : firstErr l = none := (firstErr_eq_none_iff l).2 h
        rw [hfe] at hn; cases hn

/-- Concrete environment for the C4 witness: two remote files of which the
second fails to download. -/
def c4Env : Env :=
  { baseEnv with
      openRepo := .ok { URI := "r", CommitID := "c", RootDir := "/d" },
      list := fun _ =>
        .ok [{ CommitID := "c", Path := "a.json", Size := 1, ModTime := 0 },
             { CommitID := "c", Path := "b.json", Size := 1, ModTime := 0 }],
      get := fun s => if s.Path = "a.json" then .ok [1] else .error "network down" }

/-- Witness for C4: two pull files of which the second fails; the result is
exactly the executor aggregate over both task runs. -/
theorem batch_first_error_witness :
    PullCmdExecute { List := false, URLs := false } c4Env
      = (execOfErr (firstErr
          (([{ CommitID := "c", Path := "a.json", Size := 1, ModTime := 0 },
             { CommitID := "c", Path := "b.json", Size := 1, ModTime := 0 }].map
            (fun f => fetchFile c4Env "r" f)).map Prod.fst)),
         concatEff
          (([{ CommitID := "c", Path := "a.json", Size := 1, ModTime := 0 },
             { CommitID := "c", Path := "b.json", Size := 1, ModTime := 0 }].map
            (fun f => fetchFile c4Env "r" f)).map Prod.snd)) :=
  (batch_first_error { List := false, URLs := false } { List := false } c4Env c4Env
    { URI := "r", CommitID := "c", RootDir := "/d" }
    { URI := "r", CommitID := "c", RootDir := "/d" } _ []
    rfl rfl rfl rfl rfl rfl rfl rfl).1

/-- Claim C10: both transfer tasks address their file by the record's own
`CommitID`, not the synced revision: the remote spec's `Rev` and `CommitID`
fields and the concrete local path all come from the record, so a record whose
`CommitID` differs from the synced revision is addressed under its own commit. -/
theorem transfer_addresses_by_record_commit (env : Env) (uri rev : String)
    (fi : BuildDataFileInfo) (bs lbs : Bytes) (sz : Nat)
    (hne : fi.CommitID ≠ rev)
    (hget : env.get (specOf uri fi) = .ok bs)
    (hstat : env.stat (FilePath fi.CommitID fi.Path) = .ok true sz)
    (hopen : env.openF (FilePath fi.CommitID fi.Path) = .ok lbs) :
    (specOf uri fi).RepoRev.CommitID = fi.CommitID
    ∧ (specOf uri fi).RepoRev.Rev = fi.CommitID
    ∧ (specOf uri fi).RepoRev.CommitID ≠ rev
    ∧ Ev.remoteOpen (specOf uri fi) ∈ (fetchFile env uri fi).2.trace
    ∧ (∀ w ∈ (fetchFile env uri fi).2.writes, w.1 = FilePath fi.CommitID fi.Path)
    ∧ (uploadFile env fi uri).2.uploads = [(specOf uri fi, lbs)]
    ∧ (uploadFile env fi uri).2.trace = [Ev.localOpen (FilePath fi.CommitID fi.Path)] := by
  simp only [specOf] at hget ⊢
  refine ⟨trivial, trivial, hne, ?_, ?_, ?_, ?_⟩
  · simp only [fetchFile, hget]
    cases hm : env.mkdirAll (dirOf (FilePath fi.CommitID fi.Path)) with
    | some e => simp
    | none =>
      cases hc : env.create (FilePath fi.CommitID fi.Path) with
      | some e => simp
      | none =>
        cases hcp : env.copy (FilePath fi.CommitID fi.Path) bs with
        | some e => simp
        | none => simp
  · simp only [fetchFile, hget]
    cases hm : env.mkdirAll (dirOf (FilePath fi.CommitID fi.Path)) with
    | some e => simp
    | none =>
      cases hc : env.create (FilePath fi.CommitID fi.Path) with
      | some e => simp
      | none =>
        cases hcp : env.copy (FilePath fi.CommitID fi.Path) bs with
        | some e => simp
        | none =>
          intro w hw
          simp only [List.mem_singleton] at hw
          rw [hw]
  · simp only [uploadFile, hstat, hopen, Bool.not_true, Bool.false_eq_true, if_false]
    cases hu : env.upload
        { RepoRev := { URI := uri, Rev := fi.CommitID, CommitID := fi.CommitID },
          Path := fi.Path } lbs with
    | some e => simp
    | none => simp
  · simp only [uploadFile, hstat, hopen, Bool.not_true, Bool.false_eq_true, if_false]
    cases hu : env.upload
        { RepoRev := { URI := uri, Rev := fi.CommitID, CommitID := fi.CommitID },
          Path := fi.Path } lbs with
    | some e => simp
    | none => simp

/-- Witness for C10: a record from commit `old` synced while the working
revision is `head` is addressed under `old` on both sides. -/
theorem transfer_addresses_by_record_commit_witness :
    (specOf "r" { CommitID := "old", Path := "a.json", Size := 1, ModTime := 0 }).RepoRev.CommitID
      = "old"
    ∧ (uploadFile
        { baseEnv with stat := fun _ => .ok true 1, openF := fun _ => .ok [9],
                       get := fun _ => .ok [9] }
        { CommitID := "old", Path := "a.json", Size := 1, ModTime := 0 } "r").2.uploads
      = [(specOf "r" { CommitID := "old", Path := "a.json", Size := 1, ModTime := 0 }, [9])] :=
  by
  have h := transfer_addresses_by_record_commit
    { baseEnv with stat := fun _ => .ok true 1, openF := fun _ => .ok [9],
                   get := fun _ => .ok [9] }
    "r" "head" { CommitID := "old", Path := "a.json", Size := 1, ModTime := 0 } [9] [9] 1
    (by decide) rfl rfl rfl
  exact ⟨h.1, h.2.2.2.2.2.1⟩

/-- Concrete environment for the C6 counterexample: `OpenRepo(".")` fails. -/
def c6Env : Env := { baseEnv with openRepo := .error "open repo failed" }

/-- Counterexample to C6 as stated: a revision-resolution failure makes Pull
return the error to its caller (`return err` at remote_data_cmds.go line 47),
not a process-terminating fatal log. -/
theorem setup_error_not_always_fatal :
    (PullCmdExecute { List := false, URLs := false } c6Env).1 = .err "open repo failed"
    ∧ ∀ e, (PullCmdExecute { List := false, URLs := false } c6Env).1 ≠ .fatal e := by
  refine ⟨rfl, ?_⟩
  intro e h
  rw [show (PullCmdExecute { List := false, URLs := false } c6Env).1
        = .err "open repo failed" from rfl] at h
  cases h

/-- Claim C6 amended: every setup failure aborts before any transfer task is
submitted, with no effects.  Revision-resolution failure returns the error to
the caller in both commands, as does Pull's local-store-initialization failure;
Push's store-initialization and local-listing failures and Pull's non-404
remote-list failures are process-terminating fatal logs.  A per-file error
during the batch instead propagates as the aggregated batch error returned to
the caller. -/
theorem setup_failure_aborts_before_transfer :
    (∀ (c : PullOpts) (env : Env) (e : Err),
      env.openRepo = .error e → PullCmdExecute c env = (.err e, emptyEff))
    ∧ (∀ (c : PushOpts) (env : Env) (e : Err),
      env.openRepo = .error e → PushCmdExecute c env = (.err e, emptyEff))
    ∧ (∀ (c : PullOpts) (env : Env) (repo : Repo) (files : List BuildDataFileInfo) (e : Err),
      env.openRepo = .ok repo →
      env.list { URI := repo.URI, Rev := repo.CommitID, CommitID := repo.CommitID } = .ok files →
      c.List = false → env.newRepoStore repo.RootDir = .error e →
      PullCmdExecute c env = (.err e, emptyEff))
    ∧ (∀ (c : PushOpts) (env : Env) (repo : Repo) (e : Err),
      env.openRepo = .ok repo → env.newRepoStore repo.RootDir = .error e →
      PushCmdExecute c env = (.fatal e, emptyEff))
    ∧ (∀ (c : PushOpts) (env : Env) (repo : Repo) (e : Err),
      env.openRepo = .ok repo → env.newRepoStore repo.RootDir = .ok () →
      env.allDataFiles = .error e → PushCmdExecute c env = (.fatal e, emptyEff))
    ∧ (∀ (c : PullOpts) (env : Env) (repo : Repo) (e : Err),
      env.openRepo = .ok repo →
      env.list { URI := repo.URI, Rev := repo.CommitID, CommitID := repo.CommitID }
        = .otherErr e →
      PullCmdExecute c env = (.fatal e, emptyEff))
    ∧ (∀ (c : PullOpts) (env : Env) (repo : Repo) (e : Err) (status : Nat),
      env.openRepo = .ok repo →
      env.list { URI := repo.URI, Rev := repo.CommitID, CommitID := repo.CommitID }
        = .httpErr e status →
      status ≠ 404 → PullCmdExecute c env = (.fatal e, emptyEff))
    ∧ (∀ (c : PullOpts) (env : Env) (repo : Repo) (f : BuildDataFileInfo) (e : Err),
      env.openRepo = .ok repo →
      env.list { URI := repo.URI, Rev := repo.CommitID, CommitID := repo.CommitID } = .ok [f] →
      c.List = false → env.newRepoStore repo.RootDir = .ok () →
      (fetchFile env repo.URI f).1 = some e →
      (PullCmdExecute c env).1 = .err e) := by
  refine ⟨?_, ?_, ?_, ?_, ?_, ?_, ?_, ?_⟩
  · intro c env e h; simp [PullCmdExecute, h]
  · intro c env e h; simp [PushCmdExecute, h]
  · intro c env repo files e h1 h2 h3 h4; simp [PullCmdExecute, h1, h2, h3, h4]
  · intro c env repo e h1 h2; simp [PushCmdExecute, h1, h2]
  · intro c env repo e h1 h2 h3; simp [PushCmdExecute, h1, h2, h3]
  · intro c env repo e h1 h2; simp [PullCmdExecute, h1, h2]
  · intro c env repo e status h1 h2 hs; simp [PullCmdExecute, h1, h2, hs]
  · intro c env repo f e h1 h2 h3 h4 hf
    simp [PullCmdExecute, h1, h2, h3, h4, parRun, firstErr, hf, execOfErr]

/-- Witness for the amended C6 at concrete environments: a failing `OpenRepo`
returns the error from Pull, and a failing `NewRepositoryStore` is fatal in
Push. -/
theorem setup_failure_aborts_before_transfer_witness :
    PullCmdExecute { List := false, URLs := false } c6Env = (.err "open repo failed", emptyEff)
    ∧ PushCmdExecute { List := false }
        { baseEnv with openRepo := .ok { URI := "r", CommitID := "c", RootDir := "/d" },
                       newRepoStore := fun _ => .error "mkdir denied" }
      = (.fatal "mkdir denied", emptyEff) :=
  ⟨setup_failure_aborts_before_transfer.1 _ c6Env "open repo failed" rfl,
   setup_failure_aborts_before_transfer.2.2.2.1 _ _
     { URI := "r", CommitID := "c", RootDir := "/d" } "mkdir denied" rfl rfl⟩

/-- State of the bounded executor: tasks not yet started, currently active,
and finished.  Modelled from the spec: `parallel.NewRun(k)` runs submitted
tasks with at most `k` simultaneously active. -/
structure SchedState where
  pending : List Nat
  active : List Nat
  done : List Nat
deriving DecidableEq, Repr

/-- Modelled from the spec: one scheduling step of the bounded executor.  A
pending task may start only while fewer than `K` tasks are active; an active
task may finish at any time. -/
inductive SchedStep (K : Nat) : SchedState → SchedState → Prop
  | start (t : Nat) (p a d : List Nat) :
      a.length < K → SchedStep K ⟨t :: p, a, d⟩ ⟨p, t :: a, d⟩
  | finish (t : Nat) (p a₁ a₂ d : List Nat) :
      SchedStep K ⟨p, a₁ ++ t :: a₂, d⟩ ⟨p, a₁ ++ a₂, t :: d⟩

/-- Reflexive-transitive closure of `SchedStep`. -/
inductive SchedReach (K : Nat) : SchedState → SchedState → Prop
  | refl (s : SchedState) : SchedReach K s s
  | step {s t u : SchedState} : SchedReach K s t → SchedStep K t u → SchedReach K s u

/-- The executor's initial state: all submitted tasks pending. -/
def initSched (tasks : List Nat) : SchedState := ⟨tasks, [], []⟩

lemma sched_active_le {K : Nat} {s t : SchedState} (h : SchedReach K s t)
    (h0 : s.active.length ≤ K) : t.active.length ≤ K := by
  induction h with
  | refl => exact h0
  | step hreach hstep ih =>
    cases hstep with
    | start t p a d hlt => exact Nat.succ_le_of_lt hlt
    | finish t p a₁ a₂ d =>
      have := ih
      simp only [List.length_append, List.length_cons] at this ⊢
      omega

/-- Claim C7: both commands construct the executor with the fixed bound 8
(`parBound`, the literal at remote_data_cmds.go lines 89 and 186), and in every
state the executor can reach from a batch of submitted tasks — however many —
at most 8 tasks are active simultaneously. -/
theorem executor_active_bounded (tasks : List Nat) (s : SchedState)
    (h : SchedReach parBound (initSched tasks) s) :
    parBound = 8 ∧ s.active.length ≤ 8 :=
  ⟨rfl, sched_active_le h (by simp [initSched, parBound])⟩

/-- Witness for C7: from twenty submitted tasks, after starting one task the
executor state has at most 8 active tasks. -/
theorem executor_active_bounded_witness :
    parBound = 8 ∧
      (SchedState.mk [1, 2, 3, 4, 5, 6, 7, 8, 9, 10, 11, 12, 13, 14, 15, 16, 17, 18, 19]
        [0] []).active.length ≤ 8 :=
  executor_active_bounded
    [0, 1, 2, 3, 4, 5, 6, 7, 8, 9, 10, 11, 12, 13, 14, 15, 16, 17, 18, 19] _
    (SchedReach.step (SchedReach.refl _)
      (SchedStep.start 0 [1, 2, 3, 4, 5, 6, 7, 8, 9, 10, 11, 12, 13, 14, 15, 16, 17, 18, 19]
        [] [] (by simp [parBound])))

/-- Concrete environment for C8: the local file stats as a regular file, opens
successfully, and uploads successfully. -/
def c8Env : Env :=
  { baseEnv with stat := fun _ => .ok true 5, openF := fun _ => .ok [1, 2, 3, 4, 5] }

/-- Claim C8 evaluated at the failing input: on a successful upload the task's
trace opens the local file and never closes it — `uploadFile` has no
`defer f.Close()` on any path — whereas `fetchFile` does close both the remote
stream and the created local file on its success path. -/
theorem upload_stream_never_closed :
    (uploadFile c8Env { CommitID := "c", Path := "d/f.json", Size := 5, ModTime := 0 } "r").1
      = none
    ∧ (uploadFile c8Env { CommitID := "c", Path := "d/f.json", Size := 5, ModTime := 0 }
        "r").2.trace = [Ev.localOpen "c/d/f.json"]
    ∧ (∀ p, Ev.localCloseR p ∉
        (uploadFile c8Env { CommitID := "c", Path := "d/f.json", Size := 5, ModTime := 0 }
          "r").2.trace)
    ∧ (fetchFile { c8Env with get := fun _ => .ok [1, 2, 3, 4, 5] } "r"
        { CommitID := "c", Path := "d/f.json", Size := 5, ModTime := 0 }).2.trace
      = [Ev.remoteOpen (specOf "r" { CommitID := "c", Path := "d/f.json", Size := 5, ModTime := 0 }),
         Ev.localCreate "c/d/f.json", Ev.localCloseW "c/d/f.json",
         Ev.remoteClose (specOf "r" { CommitID := "c", Path := "d/f.json", Size := 5, ModTime := 0 })] := by
  refine ⟨rfl, rfl, ?_, rfl⟩
  intro p h
  rw [show (uploadFile c8Env { CommitID := "c", Path := "d/f.json", Size := 5, ModTime := 0 }
        "r").2.trace = [Ev.localOpen "c/d/f.json"] from rfl] at h
  simp only [List.mem_singleton] at h
  cases h

/-- Association lookup in the remote's stored uploads, keyed by file spec. -/
def lookupSpec : List (BuildDataFileSpec × Bytes) → BuildDataFileSpec → Option Bytes
  | [], _ => none
  | (s', b) :: rest, s => if s' = s then some b else lookupSpec rest s

/-- Association lookup in a local store's completed writes, keyed by path. -/
def lookupPath : List (String × Bytes) → String → Option Bytes
  | [], _ => none
  | (p', b) :: rest, p => if p' = p then some b else lookupPath rest p

/-- The content a local store function holds at a record's concrete path. -/
def contentOf (loc : String → Option Bytes) (r : BuildDataFileInfo) : Bytes :=
  (loc (FilePath r.CommitID r.Path)).getD []

/-- Environment of a Push run over a local store `loc` (path to content):
`Stat` sees a regular file exactly where `loc` is populated, `Open` yields its
bytes, and the remote accepts every upload. -/
def pushEnvOf (repo : Repo) (records : List BuildDataFileInfo)
    (loc : String → Option Bytes) : Env :=
  { baseEnv with
      openRepo := .ok repo
      allDataFiles := .ok records
      stat := fun p => match loc p with
        | some bs => .ok true bs.length
        | none => .err "file does not exist"
      openF := fun p => match loc p with
        | some bs => .ok bs
        | none => .error "file does not exist" }

/-- Environment of a Pull run into a fresh empty local store, against a remote
holding `uploads`: `List` returns the records, `Get` serves the stored bytes,
and all local-store operations succeed. -/
def pullEnvOf (repo : Repo) (records : List BuildDataFileInfo)
    (uploads : List (BuildDataFileSpec × Bytes)) : Env :=
  { baseEnv with
      openRepo := .ok repo
      list := fun _ => .ok records
      get := fun s => match lookupSpec uploads s with
        | some bs => .ok bs
        | none => .error "404" }

/-- Push a local store to an empty remote, then pull what the remote now holds
into a fresh empty local store. -/
def roundTrip (repo : Repo) (records : List BuildDataFileInfo)
    (loc : String → Option Bytes) : (ExecResult × Effects) × (ExecResult × Effects) :=
  let push := PushCmdExecute { List := false } (pushEnvOf repo records loc)
  let pull := PullCmdExecute { List := false, URLs := false }
                (pullEnvOf repo records push.2.uploads)
  (push, pull)

lemma uploadFile_present (repo : Repo) (records0 : List BuildDataFileInfo)
    (loc : String → Option Bytes) (r : BuildDataFileInfo) (bs : Bytes)
    (h : loc (FilePath r.CommitID r.Path) = some bs) :
    uploadFile (pushEnvOf repo records0 loc) r repo.URI
      = (none, { mkdirs := [], writes := [], uploads := [(specOf repo.URI r, bs)],
                 trace := [Ev.localOpen (FilePath r.CommitID r.Path)] }) := by
  simp [uploadFile, pushEnvOf, baseEnv, h, specOf]

lemma concatEff_nil : concatEff [] = emptyEff := rfl

lemma concatEff_cons (e : Effects) (l : List Effects) :
    concatEff (e :: l) = Effects.append e (concatEff l) := rfl

lemma append_uploads (a b : Effects) :
    (Effects.append a b).uploads = a.uploads ++ b.uploads := rfl

lemma append_writes (a b : Effects) :
    (Effects.append a b).writes = a.writes ++ b.writes := rfl

lemma push_tasks_ok (repo : Repo) (records0 : List BuildDataFileInfo)
    (loc : String → Option Bytes) (records : List BuildDataFileInfo)
    (h : ∀ r ∈ records, (loc (FilePath r.CommitID r.Path)).isSome) :
    firstErr ((records.map
        (fun f => uploadFile (pushEnvOf repo records0 loc) f repo.URI)).map Prod.fst) = none
    ∧ (concatEff ((records.map
        (fun f => uploadFile (pushEnvOf repo records0 loc) f repo.URI)).map Prod.snd)).uploads
      = records.map (fun r => (specOf repo.URI r, contentOf loc r)) := by
  induction records with
  | nil => simp [firstErr, concatEff, emptyEff]
  | cons r rest ih =>
    obtain ⟨bs, hbs⟩ := Option.isSome_iff_exists.1 (h r (List.mem_cons_self r rest))
    have hrest := ih (fun x hx => h x (List.mem_cons_of_mem r hx))
    have hone := uploadFile_present repo records0 loc r bs hbs
    refine ⟨?_, ?_⟩
    · simp only [List.map_cons, hone, firstErr]
      exact hrest.1
    · simp only [List.map_cons, hone, concatEff_cons, append_uploads]
      rw [hrest.2]
      simp [contentOf, hbs]

lemma fetchFile_served (repo : Repo) (records0 : List BuildDataFileInfo)
    (uploads : List (BuildDataFileSpec × Bytes)) (uri : String) (r : BuildDataFileInfo)
    (bs : Bytes) (h : lookupSpec uploads (specOf uri r) = some bs) :
    fetchFile (pullEnvOf repo records0 uploads) uri r
      = (none, { mkdirs := [dirOf (FilePath r.CommitID r.Path)],
                 writes := [(FilePath r.CommitID r.Path, bs)], uploads := [],
                 trace := [Ev.remoteOpen (specOf uri r),
                           Ev.localCreate (FilePath r.CommitID r.Path),
                           Ev.localCloseW (FilePath r.CommitID r.Path),
                           Ev.remoteClose (specOf uri r)] }) := by
  simp only [specOf] at h
  simp [fetchFile, pullEnvOf, baseEnv, h, specOf]

lemma specOf_filePath_eq (uri : String) (a b : BuildDataFileInfo)
    (h : specOf uri a = specOf uri b) :
    FilePath a.CommitID a.Path = FilePath b.CommitID b.Path := by
  simp only [specOf, BuildDataFileSpec.mk.injEq, RepoRevSpec.mk.injEq] at h
  rw [FilePath, FilePath, h.1.2.1, h.2]

lemma lookupSpec_pushed (uri : String) (cnt : BuildDataFileInfo → Bytes)
    (records : List BuildDataFileInfo)
    (hdist : records.Pairwise
      (fun a b => FilePath a.CommitID a.Path ≠ FilePath b.CommitID b.Path)) :
    ∀ r ∈ records,
      lookupSpec (records.map (fun x => (specOf uri x, cnt x))) (specOf uri r)
        = some (cnt r) := by
  induction records with
  | nil => intro r hr; cases hr
  | cons x rest ih =>
    intro r hr
    rcases List.mem_cons.1 hr with rfl | hr'
    · simp [lookupSpec]
    · have hx : specOf uri x ≠ specOf uri r := fun hcontra =>
        (List.pairwise_cons.1 hdist).1 r hr' (specOf_filePath_eq uri x r hcontra)
      simp only [List.map_cons, lookupSpec, if_neg hx]
      exact ih (List.pairwise_cons.1 hdist).2 r hr'

lemma pull_tasks_ok (repo : Repo) (records0 : List BuildDataFileInfo)
    (uploads : List (BuildDataFileSpec × Bytes)) (uri : String)
    (records : List BuildDataFileInfo) (cnt : BuildDataFileInfo → Bytes)
    (h : ∀ r ∈ records, lookupSpec uploads (specOf uri r) = some (cnt r)) :
    firstErr ((records.map
        (fun f => fetchFile (pullEnvOf repo records0 uploads) uri f)).map Prod.fst) = none
    ∧ (concatEff ((records.map
        (fun f => fetchFile (pullEnvOf repo records0 uploads) uri f)).map Prod.snd)).writes
      = records.map (fun r => (FilePath r.CommitID r.Path, cnt r)) := by
  induction records with
  | nil => simp [firstErr, concatEff, emptyEff]
  | cons r rest ih =>
    have hone := fetchFile_served repo records0 uploads uri r (cnt r)
      (h r (List.mem_cons_self r rest))
    have hrest := ih (fun x hx => h x (List.mem_cons_of_mem r hx))
    refine ⟨?_, ?_⟩
    · simp only [List.map_cons, hone, firstErr]
      exact hrest.1
    · simp only [List.map_cons, hone, concatEff_cons, append_writes]
      rw [hrest.2]
      simp

lemma lookupPath_written (cnt : BuildDataFileInfo → Bytes)
    (records : List BuildDataFileInfo)
    (hdist : records.Pairwise
      (fun a b => FilePath a.CommitID a.Path ≠ FilePath b.CommitID b.Path)) :
    ∀ r ∈ records,
      lookupPath (records.map (fun x => (FilePath x.CommitID x.Path, cnt x)))
        (FilePath r.CommitID r.Path) = some (cnt r) := by
  induction records with
  | nil => intro r hr; cases hr
  | cons x rest ih =>
    intro r hr
    rcases List.mem_cons.1 hr with rfl | hr'
    · simp [lookupPath]
    · have hx : FilePath x.CommitID x.Path ≠ FilePath r.CommitID r.Path :=
        (List.pairwise_cons.1 hdist).1 r hr'
      simp only [List.map_cons, lookupPath, if_neg hx]
      exact ih (List.pairwise_cons.1 hdist).2 r hr'

/-- Claim C3: pushing a local store whose files (a zero-byte file allowed) sit
at pairwise-distinct concrete paths to an empty remote, then pulling into a
fresh empty local store, succeeds in both directions and reproduces
byte-identical content at the same concrete (commit identifier, relative path)
addresses, since Push and Pull derive the same `FilePath` and the same file
spec deterministically from each record. -/
theorem push_pull_round_trip (repo : Repo) (records : List BuildDataFileInfo)
    (loc : String → Option Bytes)
    (hpres : ∀ r ∈ records, (loc (FilePath r.CommitID r.Path)).isSome)
    (hdist : records.Pairwise
      (fun a b => FilePath a.CommitID a.Path ≠ FilePath b.CommitID b.Path)) :
    (roundTrip repo records loc).1.1 = .ok
    ∧ (roundTrip repo records loc).2.1 = .ok
    ∧ ∀ r ∈ records,
        lookupPath (roundTrip repo records loc).2.2.writes (FilePath r.CommitID r.Path)
          = loc (FilePath r.CommitID r.Path) := by
  have hpush := push_tasks_ok repo records loc records hpres
  have hPushEq :
      PushCmdExecute { List := false } (pushEnvOf repo records loc)
        = (execOfErr (firstErr ((records.map
            (fun f => uploadFile (pushEnvOf repo records loc) f repo.URI)).map Prod.fst)),
           concatEff ((records.map
            (fun f => uploadFile (pushEnvOf repo records loc) f repo.URI)).map Prod.snd)) := by
    simp [PushCmdExecute, pushEnvOf, baseEnv, parRun]
  have hUploads :
      (PushCmdExecute { List := false } (pushEnvOf repo records loc)).2.uploads
        = records.map (fun r => (specOf repo.URI r, contentOf loc r)) := by
    rw [hPushEq]; exact hpush.2
  have hlook := lookupSpec_pushed repo.URI (contentOf loc) records hdist
  have hserved : ∀ r ∈ records,
      lookupSpec (PushCmdExecute { List := false } (pushEnvOf repo records loc)).2.uploads
        (specOf repo.URI r) = some (contentOf loc r) := by
    intro r hr; rw [hUploads]; exact hlook r hr
  have hpull := pull_tasks_ok repo records
    (PushCmdExecute { List := false } (pushEnvOf repo records loc)).2.uploads
    repo.URI records (contentOf loc) hserved
  have hPullEq :
      PullCmdExecute { List := false, URLs := false }
        (pullEnvOf repo records
          (PushCmdExecute { List := false } (pushEnvOf repo records loc)).2.uploads)
        = (execOfErr (firstErr ((records.map
            (fun f => fetchFile (pullEnvOf repo records
              (PushCmdExecute { List := false } (pushEnvOf repo records loc)).2.uploads)
              repo.URI f)).map Prod.fst)),
           concatEff ((records.map
            (fun f => fetchFile (pullEnvOf repo records
              (PushCmdExecute { List := false } (pushEnvOf repo records loc)).2.uploads)
              repo.URI f)).map Prod.snd)) := by
    simp [PullCmdExecute, pullEnvOf, baseEnv, parRun]
  refine ⟨?_, ?_, ?_⟩
  · show (PushCmdExecute { List := false } (pushEnvOf repo records loc)).1 = .ok
    rw [hPushEq]
    show execOfErr (firstErr ((records.map
        (fun f => uploadFile (pushEnvOf repo records loc) f repo.URI)).map Prod.fst)) = .ok
    rw [hpush.1]
    rfl
  · show (PullCmdExecute { List := false, URLs := false } (pullEnvOf repo records
        (PushCmdExecute { List := false } (pushEnvOf repo records loc)).2.uploads)).1 = .ok
    rw [hPullEq]
    show execOfErr (firstErr ((records.map
        (fun f => fetchFile (pullEnvOf repo records
          (PushCmdExecute { List := false } (pushEnvOf repo records loc)).2.uploads)
          repo.URI f)).map Prod.fst)) = .ok
    rw [hpull.1]
    rfl
  · intro r hr
    show lookupPath
        (PullCmdExecute { List := false, URLs := false } (pullEnvOf repo records
          (PushCmdExecute { List := false } (pushEnvOf repo records loc)).2.uploads)).2.writes
        (FilePath r.CommitID r.Path) = loc (FilePath r.CommitID r.Path)
    rw [hPullEq]
    show lookupPath (concatEff ((records.map
        (fun f => fetchFile (pullEnvOf repo records
          (PushCmdExecute { List := false } (pushEnvOf repo records loc)).2.uploads)
          repo.URI f)).map Prod.snd)).writes (FilePath r.CommitID r.Path)
      = loc (FilePath r.CommitID r.Path)
    rw [hpull.2, lookupPath_written (contentOf loc) records hdist r hr]
    obtain ⟨bs, hbs⟩ := Option.isSome_iff_exists.1 (hpres r hr)
    rw [hbs, contentOf, hbs]
    rfl

/-- The two-file store of the round-trip test: a 10-byte file and a 0-byte
file under commit `c1`. -/
def rtRecords : List BuildDataFileInfo :=
  [{ CommitID := "c1", Path := "a.dat", Size := 10, ModTime := 0 },
   { CommitID := "c1", Path := "b.dat", Size := 0, ModTime := 0 }]

/-- The content function of the round-trip test's initial local store. -/
def rtLoc : String → Option Bytes := fun p =>
  if p = "c1/a.dat" then some [0, 1, 2, 3, 4, 5, 6, 7, 8, 9]
  else if p = "c1/b.dat" then some [] else none

/-- Witness for C3 at the spec's concrete store {A: 10 bytes, B: 0 bytes}. -/
theorem push_pull_round_trip_witness :
    (roundTrip { URI := "r", CommitID := "c1", RootDir := "/d" } rtRecords rtLoc).2.1 = .ok
    ∧ lookupPath
        (roundTrip { URI := "r", CommitID := "c1", RootDir := "/d" } rtRecords rtLoc).2.2.writes
        (FilePath "c1" "b.dat")
      = rtLoc (FilePath "c1" "b.dat") := by
  have h := push_pull_round_trip { URI := "r", CommitID := "c1", RootDir := "/d" }
    rtRecords rtLoc
    (by intro r hr; fin_cases hr <;> simp [rtLoc, FilePath])
    (by simp [rtRecords, List.pairwise_cons, FilePath])
  exact ⟨h.2.1, h.2.2 { CommitID := "c1", Path := "b.dat", Size := 0, ModTime := 0 }
    (by simp [rtRecords])⟩

end SrclibGo
